import Mathlib

/-!
# vanir: masking of SQL dump lines (`src/main.go`)

Shallow embedding of `TemplateValue.First`, `TemplateValue.Last` and `handleLine`.

Conventions of the embedding.

* A Go `string` / `[]byte` is a Lean `String`; `[]rune(s)` is `s.data` and
  `string(runes)` is `String.mk runes` (text is taken to be well-formed UTF-8,
  so the rune sequence of a string is its list of code points).
* A Go `int` is an `Int`.
* A call either returns, panics (Go run-time panic) or ends the process through
  `log.Fatal`; the last two are the two constructors of `Abort`.
* The imported packages `github.com/xwb1989/sqlparser` and `text/template` are
  not part of the program: `handleLine` takes them as the fields of `Lib`.
-/

namespace Vanir

/-! ## Outcomes -/

/-- The two ways a call can fail to return: a run-time panic, or `log.Fatal`. -/
inductive Abort where
  | panic (reason : String)
  | fatal (err : String)
  deriving DecidableEq, Repr

/-! ## `strings` helpers used by `handleLine` -/

/-- Go `strings.HasPrefix(s, p)`. -/
def HasPrefix (s p : String) : Bool :=
  p.data.isPrefixOf s.data

/-- Go `strings.TrimSuffix(s, suffix)`: `s` without the trailing `suffix`, or `s` itself. -/
def TrimSuffix (s suffix : String) : String :=
  if suffix.data.isSuffixOf s.data then
    String.mk (s.data.take (s.data.length - suffix.data.length))
  else s

/-! ## `TemplateValue` (main.go 25-56) -/

/-- The struct `TemplateValue` (main.go 25-28). -/
structure TemplateValue where
  Raw : String
  Salt : String
  deriving DecidableEq, Repr

/-- Go slice expression `a[lo:hi]` on the rune slice `a`: panics unless
`0 ≤ lo ≤ hi` and `hi` is within the slice. Both callers reach it with
`hi ≤ len(a)` only, so the bound is written with the length. -/
def sliceRunes (a : List Char) (lo hi : Int) : Except Abort (List Char) :=
  if 0 ≤ lo ∧ lo ≤ hi ∧ hi ≤ (a.length : Int) then
    .ok ((a.take hi.toNat).drop lo.toNat)
  else
    .error (.panic "slice bounds out of range")

/-- `func (v TemplateValue) First(n int) string` (main.go 38-46). -/
def TemplateValue.First (v : TemplateValue) (n : Int) : Except Abort String :=
  let rawRune := v.Raw.data
  if (rawRune.length : Int) < n then
    .ok v.Raw
  else
    (sliceRunes rawRune 0 n).map String.mk

/-- `func (v TemplateValue) Last(n int) string` (main.go 48-56). -/
def TemplateValue.Last (v : TemplateValue) (n : Int) : Except Abort String :=
  let rawRune := v.Raw.data
  if (rawRune.length : Int) < n then
    .ok v.Raw
  else
    (sliceRunes rawRune ((rawRune.length : Int) - n) (rawRune.length : Int)).map String.mk

/-! ## The statement tree of `sqlparser` as far as `handleLine` reads it -/

/-- `sqlparser.ValType`, the kind of a `SQLVal` literal. -/
inductive ValType where
  | StrVal | IntVal | FloatVal | HexNum | HexVal | ValArg | BitVal
  deriving DecidableEq, Repr

/-- `sqlparser.Expr` as `handleLine` discriminates it (main.go 119-138): the
`*NullVal` case, the `*SQLVal` case, and every other node kind (boolean
values, function calls, ...), kept by its canonical text. -/
inductive Expr where
  | NullVal
  | SQLVal (typ : ValType) (Val : String)
  | other (text : String)
  deriving DecidableEq, Repr

/-- `sqlparser.NewStrVal`. -/
def NewStrVal (v : String) : Expr := .SQLVal .StrVal v

/-- `sqlparser.NewIntVal`. -/
def NewIntVal (v : String) : Expr := .SQLVal .IntVal v

/-- `sqlparser.InsertRows`: a `Values` list of tuples, or a node of another
dynamic type (`*Select`, `*Union`, `*ParenSelect`), kept by its canonical text. -/
inductive InsertRows where
  | Values (rows : List (List Expr))
  | other (text : String)
  deriving DecidableEq, Repr

/-- `sqlparser.TableName`. -/
structure TableName where
  Name : String
  Qualifier : String
  deriving DecidableEq, Repr

/-- `sqlparser.Insert`. `handleLine` reads `Table.Name`, `Columns` and `Rows`
and writes into the tuples of `Rows`; the other fields are carried along. -/
structure Insert where
  Action : String
  Comments : List String
  Ignore : String
  Table : TableName
  Partitions : List String
  Columns : List String
  Rows : InsertRows
  OnDup : List (String × Expr)
  deriving DecidableEq, Repr

/-- `sqlparser.Statement`: an `*Insert`, or a node of another dynamic type. -/
inductive Statement where
  | Insert (stmt : Insert)
  | other (kind : String)
  deriving DecidableEq, Repr

/-- Result of `tmpl.Execute(&buf, data)`: the rendered `buf` with a nil error,
a non-nil error, or no return at all (a method of the data value ended the
process, as `Hashed` does through `log.Fatal`, or panicked). -/
inductive ExecResult where
  | ok (buf : String)
  | err (e : String)
  | abort (a : Abort)
  deriving DecidableEq, Repr

/-- The imported packages used by `handleLine`: `sqlparser.Parse`,
`sqlparser.String` on an `*Insert`, and `(*template.Template).Execute`. -/
structure Lib (Template : Type) where
  Parse : String → Except String Statement
  SqlString : Insert → String
  Execute : Template → TemplateValue → ExecResult

/-- The rules of one table, `map[string]*template.Template`: a lookup by column name. -/
abbrev TableRules (Template : Type) := String → Option Template

/-- The compiled configuration, `map[string]map[string]*template.Template`. -/
abbrev RuleSet (Template : Type) := String → Option (TableRules Template)

/-! ## `handleLine` (main.go 86-142) -/

section HandleLine

variable {Template : Type}

/-- The `switch col.(type)` of main.go 118-138: the new content of `row[j]`
for a value `col` whose column has the rule `tmpl`. -/
def maskCol (lib : Lib Template) (salt : String) (tmpl : Template) (col : Expr) :
    Except Abort Expr :=
  match col with
  | .NullVal => .ok col
  | .SQLVal .StrVal val =>
    match lib.Execute tmpl { Raw := val, Salt := salt } with
    | .ok buf => .ok (NewStrVal buf)
    | .err e => .error (.fatal e)
    | .abort a => .error a
  | .SQLVal .IntVal val =>
    match lib.Execute tmpl { Raw := val, Salt := salt } with
    | .ok buf => .ok (NewIntVal buf)
    | .err e => .error (.fatal e)
    | .abort a => .error a
  | .SQLVal _ _ => .ok col
  | .other _ => .ok col

/-- One iteration of the inner loop (main.go 113-139) at index `j`: the index
expression `columnNames[j]`, the rule lookup, and the switch. -/
def maskCell (lib : Lib Template) (tableRules : TableRules Template)
    (columnNames : List String) (salt : String) (j : Nat) (col : Expr) : Except Abort Expr :=
  match columnNames[j]? with
  | none => .error (.panic "index out of range")
  | some name =>
    match tableRules name with
    | none => .ok col
    | some tmpl => maskCol lib salt tmpl col

/-- The inner loop `for j, col := range row` (main.go 113-139), from index `j` on. -/
def maskRowFrom (lib : Lib Template) (tableRules : TableRules Template)
    (columnNames : List String) (salt : String) : Nat → List Expr → Except Abort (List Expr)
  | _, [] => .ok []
  | j, col :: rest =>
    match maskCell lib tableRules columnNames salt j col with
    | .error a => .error a
    | .ok c =>
      match maskRowFrom lib tableRules columnNames salt (j + 1) rest with
      | .error a => .error a
      | .ok cs => .ok (c :: cs)

/-- The outer loop `for _, row := range insert.Rows.(sqlparser.Values)` (main.go 112-140). -/
def maskRows (lib : Lib Template) (tableRules : TableRules Template)
    (columnNames : List String) (salt : String) : List (List Expr) → Except Abort (List (List Expr))
  | [] => .ok []
  | row :: rest =>
    match maskRowFrom lib tableRules columnNames salt 0 row with
    | .error a => .error a
    | .ok r =>
      match maskRows lib tableRules columnNames salt rest with
      | .error a => .error a
      | .ok rs => .ok (r :: rs)

/-- Lines 107-140 of `handleLine`: the statement after the masking loop, for a
statement whose table has the rules `tableRules`. -/
def maskInsert (lib : Lib Template) (tableRules : TableRules Template) (salt : String)
    (insert : Insert) : Except Abort Insert :=
  let columnNames := insert.Columns
  match insert.Rows with
  | .other _ => .error (.panic "interface conversion: sqlparser.InsertRows is not sqlparser.Values")
  | .Values rows =>
    match maskRows lib tableRules columnNames salt rows with
    | .error a => .error a
    | .ok rows' => .ok { insert with Rows := .Values rows' }

/-- `func handleLine(line string, configData ..., salt []byte) string` (main.go 86-142).
The first component lists the lines written to standard error by `handleLine`
itself; the second is the returned string, or the way the call did not return. -/
def handleLine (lib : Lib Template) (line : String) (configData : RuleSet Template)
    (salt : String) : List String × Except Abort String :=
  if !HasPrefix line "INSERT " then
    ([], .ok line)
  else
    match lib.Parse (TrimSuffix line ";") with
    | .error err => ([err], .ok line)
    | .ok (.other _) =>
      ([], .error (.panic "interface conversion: sqlparser.Statement is not *sqlparser.Insert"))
    | .ok (.Insert insert) =>
      let tableName := insert.Table.Name
      let stderr := ["Masking `" ++ tableName ++ "`..."]
      match configData tableName with
      | none => (stderr, .ok line)
      | some tableRules =>
        match maskInsert lib tableRules salt insert with
        | .error a => (stderr, .error a)
        | .ok masked => (stderr, .ok (lib.SqlString masked ++ ";"))

end HandleLine

/-! ## A concrete instance of the imported packages

`sqlparser.String` on an `*Insert` follows the `Format` methods of
`github.com/xwb1989/sqlparser` (`ast.go`); the template engine covers the
actions a rule can use from `TemplateValue`; `sampleParse` tabulates
`sqlparser.Parse` on the sample lines of this development. -/

/-- `sqltypes` escape table used when a string literal is written: the
character that follows the backslash, if the character must be escaped. -/
def sqlEscape (c : Char) : Option Char :=
  if c = Char.ofNat 0 then some '0'
  else if c = '\'' then some '\''
  else if c = '"' then some '"'
  else if c = Char.ofNat 8 then some 'b'
  else if c = '\n' then some 'n'
  else if c = '\r' then some 'r'
  else if c = '\t' then some 't'
  else if c = Char.ofNat 26 then some 'Z'
  else if c = '\\' then some '\\'
  else none

/-- `Value.EncodeSQL` for a string literal: single quotes around the escaped text. -/
def encodeSQL (v : String) : String :=
  "'" ++ String.mk (v.data.flatMap fun c =>
    match sqlEscape c with
    | some e => ['\\', e]
    | none => [c]) ++ "'"

/-- `Format` of a value expression (`NullVal.Format`, `SQLVal.Format`). -/
def formatExpr : Expr → String
  | .NullVal => "null"
  | .SQLVal .StrVal v => encodeSQL v
  | .SQLVal .IntVal v => v
  | .SQLVal .FloatVal v => v
  | .SQLVal .HexNum v => v
  | .SQLVal .HexVal v => "X'" ++ v ++ "'"
  | .SQLVal .BitVal v => "B'" ++ v ++ "'"
  | .SQLVal .ValArg v => v
  | .other text => text

/-- `ValTuple.Format`: the expressions of a tuple, separated by ", ", in parentheses. -/
def formatTuple (row : List Expr) : String :=
  "(" ++ ", ".intercalate (row.map formatExpr) ++ ")"

/-- `InsertRows` `Format`: `Values.Format` writes "values " and the tuples separated by ", ". -/
def formatRows : InsertRows → String
  | .Values rows => "values " ++ ", ".intercalate (rows.map formatTuple)
  | .other text => text

/-- `Columns.Format` (the empty list stands for the nil slice, which writes nothing).
Identifiers made of letters, digits and underscores that are not reserved
words are written verbatim; the quoting of other identifiers is not modelled. -/
def formatColumns (cols : List String) : String :=
  match cols with
  | [] => ""
  | _ => "(" ++ ", ".intercalate cols ++ ")"

/-- `Partitions.Format`. -/
def formatPartitions (parts : List String) : String :=
  match parts with
  | [] => ""
  | _ => " partition (" ++ ", ".intercalate parts ++ ")"

/-- `TableName.Format`. -/
def formatTableName (t : TableName) : String :=
  if t.Name = "" then ""
  else if t.Qualifier = "" then t.Name
  else t.Qualifier ++ "." ++ t.Name

/-- `OnDup.Format`. -/
def formatOnDup (upd : List (String × Expr)) : String :=
  match upd with
  | [] => ""
  | _ => " on duplicate key update " ++
      ", ".intercalate (upd.map fun u => u.1 ++ " = " ++ formatExpr u.2)

/-- `sqlparser.String(insert)`, i.e. `Insert.Format` with the format
`"%s %v%sinto %v%v%v %v%v"` over Action, Comments, Ignore, Table, Partitions,
Columns, Rows, OnDup. -/
def sqlString (insert : Insert) : String :=
  insert.Action ++ " " ++ String.join (insert.Comments.map fun c => c ++ " ") ++ insert.Ignore ++
    "into " ++ formatTableName insert.Table ++ formatPartitions insert.Partitions ++
    formatColumns insert.Columns ++ " " ++ formatRows insert.Rows ++ formatOnDup insert.OnDup

/-- A node of a compiled rule template: literal text, or an action printing a
field or a method result of the `TemplateValue` passed to `Execute`. -/
inductive TemplateNode where
  | Text (s : String)
  | Raw
  | Salt
  | First (n : Int)
  | Last (n : Int)
  deriving DecidableEq, Repr

/-- `Execute` on a list of nodes, appending to the text `buf` written so far.
A panic inside a called method is returned by `Execute` as an error. -/
def executeNodes (v : TemplateValue) : List TemplateNode → String → ExecResult
  | [], buf => .ok buf
  | .Text s :: rest, buf => executeNodes v rest (buf ++ s)
  | .Raw :: rest, buf => executeNodes v rest (buf ++ v.Raw)
  | .Salt :: rest, buf => executeNodes v rest (buf ++ v.Salt)
  | .First n :: rest, buf =>
    match v.First n with
    | .ok s => executeNodes v rest (buf ++ s)
    | .error _ => .err "error calling First"
  | .Last n :: rest, buf =>
    match v.Last n with
    | .ok s => executeNodes v rest (buf ++ s)
    | .error _ => .err "error calling Last"

/-- A plain `INSERT ... VALUES` statement as the parser builds it. -/
def plainInsert (table : String) (columns : List String) (rows : List (List Expr)) : Insert :=
  { Action := "insert", Comments := [], Ignore := "", Table := { Name := table, Qualifier := "" },
    Partitions := [], Columns := columns, Rows := .Values rows, OnDup := [] }

/-- `sqlparser.Parse` on the sample statements (each given without its final
semicolon, as `handleLine` passes it), a syntax error on any other text. -/
def sampleParse (sql : String) : Except String Statement :=
  if sql = "INSERT INTO users (id, email) VALUES (1, 'alice@example.com')" then
    .ok (.Insert (plainInsert "users" ["id", "email"]
      [[.SQLVal .IntVal "1", .SQLVal .StrVal "alice@example.com"]]))
  else if sql = "INSERT INTO users (id, email) VALUES (7, NULL), (0x1F, 'bob@example.com')" then
    .ok (.Insert (plainInsert "users" ["id", "email"]
      [[.SQLVal .IntVal "7", .NullVal], [.SQLVal .HexNum "0x1F", .SQLVal .StrVal "bob@example.com"]]))
  else if sql = "INSERT INTO users VALUES (1, 'alice@example.com')" then
    .ok (.Insert (plainInsert "users" []
      [[.SQLVal .IntVal "1", .SQLVal .StrVal "alice@example.com"]]))
  else if sql = "INSERT INTO unconfigured_table (x) VALUES (1)" then
    .ok (.Insert (plainInsert "unconfigured_table" ["x"] [[.SQLVal .IntVal "1"]]))
  else
    .error "syntax error"

/-- The imported packages, with templates given as node lists. -/
def sampleLib : Lib (List TemplateNode) where
  Parse := sampleParse
  SqlString := sqlString
  Execute := fun tmpl v => executeNodes v tmpl ""

/-- The compiled template of the rule text `{{ .First 3 }}***`. -/
def first3Stars : List TemplateNode := [.First 3, .Text "***"]

/-- The rule set of the spec's end-to-end example: table `users`, column
`email`, template `{{ .First 3 }}***`. -/
def emailRules : TableRules (List TemplateNode) := fun column =>
  if column = "email" then some first3Stars else none

/-- The rule set of the spec's end-to-end example, as a configuration. -/
def sampleRules : RuleSet (List TemplateNode) := fun table =>
  if table = "users" then some emailRules else none

/-- A rule on the integer column: table `users`, column `id`, template `{{ .First 3 }}***`. -/
def idRules : TableRules (List TemplateNode) := fun column =>
  if column = "id" then some first3Stars else none

/-- The configuration holding `idRules` for the table `users`. -/
def idRuleSet : RuleSet (List TemplateNode) := fun table =>
  if table = "users" then some idRules else none

/-! ## Vocabulary of the statements below -/

/-- The value at position `j` of row `i`, if there is one. -/
def valueAt (rows : List (List Expr)) (i j : Nat) : Option Expr :=
  match rows[i]? with
  | none => none
  | some row => row[j]?

/-- Whether a value is a `SQLVal` of type `StrVal` or `IntVal`, the two kinds
for which the switch of `handleLine` has a case that renders the template. -/
def isStrOrInt : Expr → Bool
  | .SQLVal .StrVal _ => true
  | .SQLVal .IntVal _ => true
  | _ => false

/-- No tuple of the statement is longer than its column list. -/
def RowsFit (columns : List String) (rows : List (List Expr)) : Prop :=
  ∀ row ∈ rows, row.length ≤ columns.length

/-- Every template of the table's rules renders every raw text with a nil error. -/
def Renders {Template : Type} (lib : Lib Template) (tableRules : TableRules Template)
    (salt : String) : Prop :=
  ∀ name tmpl raw, tableRules name = some tmpl →
    ∃ buf, lib.Execute tmpl { Raw := raw, Salt := salt } = .ok buf

/-! ## `First` and `Last` -/

theorem sliceRunes_ok (a : List Char) (lo hi : Int) (h0 : 0 ≤ lo) (h1 : lo ≤ hi)
    (h2 : hi ≤ (a.length : Int)) :
    sliceRunes a lo hi = .ok ((a.take hi.toNat).drop lo.toNat) := by
  simp only [sliceRunes, if_pos (And.intro h0 (And.intro h1 h2))]

theorem sliceRunes_panic (a : List Char) (lo hi : Int)
    (h : ¬ (0 ≤ lo ∧ lo ≤ hi ∧ hi ≤ (a.length : Int))) :
    sliceRunes a lo hi = .error (.panic "slice bounds out of range") := by
  simp only [sliceRunes, if_neg h]

theorem First_of_short (v : TemplateValue) (n : Int) (h : (v.Raw.data.length : Int) < n) :
    v.First n = .ok v.Raw := by
  simp only [TemplateValue.First, if_pos h]

theorem Last_of_short (v : TemplateValue) (n : Int) (h : (v.Raw.data.length : Int) < n) :
    v.Last n = .ok v.Raw := by
  simp only [TemplateValue.Last, if_pos h]

theorem First_of_fits (v : TemplateValue) (n : Int) (h0 : 0 ≤ n)
    (h : n ≤ (v.Raw.data.length : Int)) :
    v.First n = .ok (String.mk (v.Raw.data.take n.toNat)) := by
  have hlt : ¬ (v.Raw.data.length : Int) < n := by omega
  simp only [TemplateValue.First, if_neg hlt, sliceRunes_ok _ 0 n (le_refl 0) h0 h, Except.map]
  rfl

theorem Last_of_fits (v : TemplateValue) (n : Int) (h0 : 0 ≤ n)
    (h : n ≤ (v.Raw.data.length : Int)) :
    v.Last n = .ok (String.mk (v.Raw.data.drop (v.Raw.data.length - n.toNat))) := by
  have hlt : ¬ (v.Raw.data.length : Int) < n := by omega
  have hslice := sliceRunes_ok v.Raw.data ((v.Raw.data.length : Int) - n) (v.Raw.data.length : Int)
    (by omega) (by omega) (le_refl _)
  have hto : ((v.Raw.data.length : Int) - n).toNat = v.Raw.data.length - n.toNat := by omega
  have htk : List.take ((v.Raw.data.length : Int)).toNat v.Raw.data = v.Raw.data := by
    rw [Int.toNat_ofNat]; exact List.take_length _
  simp only [TemplateValue.Last, if_neg hlt, hslice, Except.map, hto, htk]

/-- C7: for `n ≥ 0`, `First n` and `Last n` return `Raw` itself when `Raw` has
fewer than `n` code points, and otherwise return exactly the first `n`,
respectively the last `n`, code points of `Raw`. -/
theorem First_Last_spec (v : TemplateValue) (n : Int) (hn : 0 ≤ n) :
    ((v.Raw.data.length : Int) < n → v.First n = .ok v.Raw ∧ v.Last n = .ok v.Raw) ∧
    (n ≤ (v.Raw.data.length : Int) →
      ∃ f l : String, v.First n = .ok f ∧ v.Last n = .ok l ∧
        f.data = v.Raw.data.take n.toNat ∧ f.data.length = n.toNat ∧
        l.data = v.Raw.data.drop (v.Raw.data.length - n.toNat) ∧ l.data.length = n.toNat ∧
        f.data <+: v.Raw.data ∧ l.data <:+ v.Raw.data) := by
  refine ⟨fun h => ⟨First_of_short v n h, Last_of_short v n h⟩, fun h => ?_⟩
  refine ⟨_, _, First_of_fits v n hn h, Last_of_fits v n hn h, rfl, ?_, rfl, ?_, ?_, ?_⟩
  · simp only [List.length_take]; omega
  · simp only [List.length_drop]; omega
  · exact List.take_prefix _ _
  · exact List.drop_suffix _ _

/-- C7, the spec's example: `First(10)` on "ab" returns "ab" (and so does `Last(10)`). -/
theorem First_Last_spec_witness :
    (0 : Int) ≤ 10 ∧
    (TemplateValue.mk "ab" "").First 10 = .ok "ab" ∧ (TemplateValue.mk "ab" "").Last 10 = .ok "ab" :=
  ⟨by decide, (First_Last_spec (TemplateValue.mk "ab" "") 10 (by decide)).1 (by decide)⟩

/-- C10: with a negative count the slice bounds fall outside the rune slice:
`First(-1)` and `Last(-1)` on "ab" panic instead of returning a string. -/
theorem First_Last_negative_panics :
    (TemplateValue.mk "ab" "").First (-1) = .error (.panic "slice bounds out of range") ∧
    (TemplateValue.mk "ab" "").Last (-1) = .error (.panic "slice bounds out of range") :=
  ⟨rfl, rfl⟩

/-- For every negative count and every raw string both operations panic. -/
theorem First_Last_panic_of_neg (v : TemplateValue) (n : Int) (hn : n < 0) :
    v.First n = .error (.panic "slice bounds out of range") ∧
    v.Last n = .error (.panic "slice bounds out of range") := by
  have hlt : ¬ (v.Raw.data.length : Int) < n := by omega
  constructor
  · simp only [TemplateValue.First, if_neg hlt,
      sliceRunes_panic v.Raw.data 0 n (by omega), Except.map]
  · simp only [TemplateValue.Last, if_neg hlt,
      sliceRunes_panic v.Raw.data ((v.Raw.data.length : Int) - n) (v.Raw.data.length : Int)
        (by omega), Except.map]

/-- For every count `n ≥ 0` both operations return a string. -/
theorem First_Last_total_of_nonneg (v : TemplateValue) (n : Int) (hn : 0 ≤ n) :
    (∃ s, v.First n = .ok s) ∧ (∃ s, v.Last n = .ok s) := by
  by_cases h : (v.Raw.data.length : Int) < n
  · exact ⟨⟨_, First_of_short v n h⟩, ⟨_, Last_of_short v n h⟩⟩
  · exact ⟨⟨_, First_of_fits v n hn (by omega)⟩, ⟨_, Last_of_fits v n hn (by omega)⟩⟩

/-! ## `handleLine`: lines passed through -/

/-- C3: a line that does not begin with "INSERT " is returned as it is,
whatever the parser, the rule set and the salt; nothing is written to
standard error. -/
theorem handleLine_not_insert {Template : Type} (lib : Lib Template) (line : String)
    (configData : RuleSet Template) (salt : String) (h : HasPrefix line "INSERT " = false) :
    handleLine lib line configData salt = ([], .ok line) := by
  simp [handleLine, h]

/-- C3, the spec's example: the line "-- comment" is returned unchanged. -/
theorem handleLine_not_insert_witness :
    HasPrefix "-- comment" "INSERT " = false ∧
    handleLine sampleLib "-- comment" sampleRules "salt" = ([], .ok "-- comment") :=
  ⟨by decide, handleLine_not_insert sampleLib "-- comment" sampleRules "salt" (by decide)⟩

/-- C4: when the line begins with "INSERT " and the parser reports an error,
the error is written to standard error and the original line is returned. -/
theorem handleLine_parse_error {Template : Type} (lib : Lib Template) (line : String)
    (configData : RuleSet Template) (salt : String) (err : String)
    (hpre : HasPrefix line "INSERT " = true)
    (hparse : lib.Parse (TrimSuffix line ";") = .error err) :
    handleLine lib line configData salt = ([err], .ok line) := by
  simp [handleLine, hpre, hparse]

/-- C4 on the malformed line "INSERT INTO users (;". -/
theorem handleLine_parse_error_witness :
    HasPrefix "INSERT INTO users (;" "INSERT " = true ∧
    sampleLib.Parse (TrimSuffix "INSERT INTO users (;" ";") = .error "syntax error" ∧
    handleLine sampleLib "INSERT INTO users (;" sampleRules "salt" =
      (["syntax error"], .ok "INSERT INTO users (;") :=
  ⟨by decide, rfl,
    handleLine_parse_error sampleLib "INSERT INTO users (;" sampleRules "salt" "syntax error"
      (by decide) rfl⟩

/-- C2: when the line parses as an INSERT statement whose table name is not a
key of the rule set, the returned string is the input line itself, whatever
the serializer of the library prints for the parsed statement. -/
theorem handleLine_table_without_rules {Template : Type} (lib : Lib Template) (line : String)
    (configData : RuleSet Template) (salt : String) (insert : Insert)
    (hparse : lib.Parse (TrimSuffix line ";") = .ok (.Insert insert))
    (hrules : configData insert.Table.Name = none) :
    (handleLine lib line configData salt).2 = .ok line := by
  by_cases hpre : HasPrefix line "INSERT " = true
  · simp [handleLine, hpre, hparse, hrules]
  · simp [handleLine, hpre]

/-- C2 on the spec's example: the line is returned as it is, and it differs
from the reserialized statement followed by ";". -/
theorem handleLine_table_without_rules_witness :
    sampleLib.Parse (TrimSuffix "INSERT INTO unconfigured_table (x) VALUES (1);" ";") =
      .ok (.Insert (plainInsert "unconfigured_table" ["x"] [[.SQLVal .IntVal "1"]])) ∧
    sampleRules "unconfigured_table" = none ∧
    (handleLine sampleLib "INSERT INTO unconfigured_table (x) VALUES (1);" sampleRules "salt").2 =
      .ok "INSERT INTO unconfigured_table (x) VALUES (1);" ∧
    sampleLib.SqlString (plainInsert "unconfigured_table" ["x"] [[.SQLVal .IntVal "1"]]) ++ ";" ≠
      "INSERT INTO unconfigured_table (x) VALUES (1);" :=
  ⟨rfl, rfl,
    handleLine_table_without_rules sampleLib "INSERT INTO unconfigured_table (x) VALUES (1);"
      sampleRules "salt" (plainInsert "unconfigured_table" ["x"] [[.SQLVal .IntVal "1"]])
      rfl rfl,
    by decide⟩

/-! ## The masking loop, cell by cell -/

section Loop

variable {Template : Type} (lib : Lib Template) (tableRules : TableRules Template)
  (columnNames : List String) (salt : String)

theorem maskCol_of_not_strOrInt (tmpl : Template) (col : Expr) (h : isStrOrInt col = false) :
    maskCol lib salt tmpl col = .ok col := by
  cases col with
  | NullVal => rfl
  | other t => rfl
  | SQLVal typ val => cases typ <;> first | rfl | simp [isStrOrInt] at h

theorem maskCol_StrVal (tmpl : Template) (raw : String) (c : Expr)
    (h : maskCol lib salt tmpl (.SQLVal .StrVal raw) = .ok c) :
    ∃ buf, lib.Execute tmpl { Raw := raw, Salt := salt } = .ok buf ∧ c = .SQLVal .StrVal buf := by
  simp only [maskCol] at h
  cases hx : lib.Execute tmpl { Raw := raw, Salt := salt } with
  | ok buf => rw [hx] at h; exact ⟨buf, rfl, (Except.ok.inj h).symm⟩
  | err e => rw [hx] at h; cases h
  | abort a => rw [hx] at h; cases h

theorem maskCol_IntVal (tmpl : Template) (raw : String) (c : Expr)
    (h : maskCol lib salt tmpl (.SQLVal .IntVal raw) = .ok c) :
    ∃ buf, lib.Execute tmpl { Raw := raw, Salt := salt } = .ok buf ∧ c = .SQLVal .IntVal buf := by
  simp only [maskCol] at h
  cases hx : lib.Execute tmpl { Raw := raw, Salt := salt } with
  | ok buf => rw [hx] at h; exact ⟨buf, rfl, (Except.ok.inj h).symm⟩
  | err e => rw [hx] at h; cases h
  | abort a => rw [hx] at h; cases h

theorem maskCol_total (tmpl : Template)
    (hex : ∀ raw, ∃ buf, lib.Execute tmpl { Raw := raw, Salt := salt } = .ok buf) (col : Expr) :
    ∃ c, maskCol lib salt tmpl col = .ok c := by
  cases col with
  | NullVal => exact ⟨_, rfl⟩
  | other t => exact ⟨_, rfl⟩
  | SQLVal typ val =>
    cases typ
    case StrVal => obtain ⟨buf, hb⟩ := hex val; exact ⟨NewStrVal buf, by simp only [maskCol, hb]⟩
    case IntVal => obtain ⟨buf, hb⟩ := hex val; exact ⟨NewIntVal buf, by simp only [maskCol, hb]⟩
    all_goals exact ⟨_, rfl⟩

theorem maskCell_of_rule (j : Nat) (name : String) (tmpl : Template) (col : Expr)
    (hn : columnNames[j]? = some name) (hr : tableRules name = some tmpl) :
    maskCell lib tableRules columnNames salt j col = maskCol lib salt tmpl col := by
  simp only [maskCell, hn, hr]

theorem maskCell_of_no_rule (j : Nat) (name : String) (col : Expr)
    (hn : columnNames[j]? = some name) (hr : tableRules name = none) :
    maskCell lib tableRules columnNames salt j col = .ok col := by
  simp only [maskCell, hn, hr]

theorem maskCell_out_of_range (j : Nat) (col : Expr) (hj : columnNames.length ≤ j) :
    maskCell lib tableRules columnNames salt j col = .error (.panic "index out of range") := by
  have hn : columnNames[j]? = none := List.getElem?_eq_none hj
  simp only [maskCell, hn]

theorem maskCell_in_range (j : Nat) (col c : Expr)
    (h : maskCell lib tableRules columnNames salt j col = .ok c) : j < columnNames.length := by
  by_contra hj
  rw [maskCell_out_of_range lib tableRules columnNames salt j col (by omega)] at h
  cases h

theorem maskCell_of_not_strOrInt (j : Nat) (col c : Expr) (hk : isStrOrInt col = false)
    (h : maskCell lib tableRules columnNames salt j col = .ok c) : c = col := by
  have hj := maskCell_in_range lib tableRules columnNames salt j col c h
  have hn : columnNames[j]? = some columnNames[j] := List.getElem?_eq_getElem hj
  cases hr : tableRules columnNames[j] with
  | none =>
    rw [maskCell_of_no_rule lib tableRules columnNames salt j _ col hn hr] at h
    exact (Except.ok.inj h).symm
  | some tmpl =>
    rw [maskCell_of_rule lib tableRules columnNames salt j _ tmpl col hn hr,
      maskCol_of_not_strOrInt lib salt tmpl col hk] at h
    exact (Except.ok.inj h).symm

theorem maskCell_total (hren : Renders lib tableRules salt) (j : Nat) (col : Expr)
    (hj : j < columnNames.length) :
    ∃ c, maskCell lib tableRules columnNames salt j col = .ok c := by
  have hn : columnNames[j]? = some columnNames[j] := List.getElem?_eq_getElem hj
  cases hr : tableRules columnNames[j] with
  | none => exact ⟨col, maskCell_of_no_rule lib tableRules columnNames salt j _ col hn hr⟩
  | some tmpl =>
    rw [maskCell_of_rule lib tableRules columnNames salt j _ tmpl col hn hr]
    exact maskCol_total lib salt tmpl (fun raw => hren _ tmpl raw hr) col

theorem maskRowFrom_ok (j : Nat) (row row' : List Expr)
    (h : maskRowFrom lib tableRules columnNames salt j row = .ok row') :
    row'.length = row.length ∧
    ∀ k col, row[k]? = some col →
      ∃ c, row'[k]? = some c ∧ maskCell lib tableRules columnNames salt (j + k) col = .ok c := by
  induction row generalizing j row' with
  | nil =>
    simp only [maskRowFrom] at h
    cases h
    exact ⟨rfl, fun k col hk => by simp at hk⟩
  | cons col rest ih =>
    cases hc : maskCell lib tableRules columnNames salt j col with
    | error a => simp only [maskRowFrom, hc] at h; cases h
    | ok c =>
      cases hr : maskRowFrom lib tableRules columnNames salt (j + 1) rest with
      | error a => simp only [maskRowFrom, hc, hr] at h; cases h
      | ok cs =>
        simp only [maskRowFrom, hc, hr] at h
        cases h
        obtain ⟨hlen, hcells⟩ := ih (j + 1) cs hr
        refine ⟨by simp [hlen], fun k col' hk => ?_⟩
        cases k with
        | zero =>
          simp only [List.getElem?_cons_zero, Option.some.injEq] at hk
          subst hk
          exact ⟨c, by simp, hc⟩
        | succ k =>
          simp only [List.getElem?_cons_succ] at hk
          obtain ⟨c', hc', hm⟩ := hcells k col' hk
          refine ⟨c', by simpa using hc', ?_⟩
          have : j + (k + 1) = j + 1 + k := by omega
          rw [this]; exact hm

theorem maskRowFrom_total (hren : Renders lib tableRules salt) (j : Nat) (row : List Expr)
    (hfit : j + row.length ≤ columnNames.length) :
    ∃ row', maskRowFrom lib tableRules columnNames salt j row = .ok row' := by
  induction row generalizing j with
  | nil => exact ⟨[], rfl⟩
  | cons col rest ih =>
    simp only [List.length_cons] at hfit
    obtain ⟨c, hc⟩ := maskCell_total lib tableRules columnNames salt hren j col (by omega)
    obtain ⟨cs, hcs⟩ := ih (j + 1) (by omega)
    exact ⟨c :: cs, by simp only [maskRowFrom, hc, hcs]⟩

theorem maskRows_ok (rows rows' : List (List Expr))
    (h : maskRows lib tableRules columnNames salt rows = .ok rows') :
    rows'.length = rows.length ∧
    ∀ (i : Nat) (row : List Expr), rows[i]? = some row →
      ∃ r, rows'[i]? = some r ∧ maskRowFrom lib tableRules columnNames salt 0 row = .ok r := by
  induction rows generalizing rows' with
  | nil =>
    simp only [maskRows] at h
    cases h
    exact ⟨rfl, fun i row hi => by simp at hi⟩
  | cons row rest ih =>
    cases hr : maskRowFrom lib tableRules columnNames salt 0 row with
    | error a => simp only [maskRows, hr] at h; cases h
    | ok r =>
      cases hrs : maskRows lib tableRules columnNames salt rest with
      | error a => simp only [maskRows, hr, hrs] at h; cases h
      | ok rs =>
        simp only [maskRows, hr, hrs] at h
        cases h
        obtain ⟨hlen, hrows⟩ := ih rs hrs
        refine ⟨by simp [hlen], fun i row₀ hi => ?_⟩
        cases i with
        | zero =>
          simp only [List.getElem?_cons_zero, Option.some.injEq] at hi
          subst hi
          exact ⟨r, List.getElem?_cons_zero, hr⟩
        | succ i =>
          simp only [List.getElem?_cons_succ] at hi
          obtain ⟨r', hr', hm⟩ := hrows i row₀ hi
          exact ⟨r', by rw [List.getElem?_cons_succ]; exact hr', hm⟩

theorem maskRows_total (hren : Renders lib tableRules salt) (rows : List (List Expr))
    (hfit : RowsFit columnNames rows) :
    ∃ rows', maskRows lib tableRules columnNames salt rows = .ok rows' := by
  induction rows with
  | nil => exact ⟨[], rfl⟩
  | cons row rest ih =>
    obtain ⟨r, hr⟩ := maskRowFrom_total lib tableRules columnNames salt hren 0 row
      (by have := hfit row (List.mem_cons_self _ _); omega)
    obtain ⟨rs, hrs⟩ := ih (fun x hx => hfit x (List.mem_cons_of_mem _ hx))
    exact ⟨r :: rs, by simp only [maskRows, hr, hrs]⟩

/-- Cell by cell: when the loop completes, the value at position `j` of row
`i` afterwards is the result of the loop body on the value before. -/
theorem maskRows_valueAt (rows rows' : List (List Expr))
    (h : maskRows lib tableRules columnNames salt rows = .ok rows') (i j : Nat) (col : Expr)
    (hv : valueAt rows i j = some col) :
    ∃ c, valueAt rows' i j = some c ∧ maskCell lib tableRules columnNames salt j col = .ok c := by
  obtain ⟨_, hrows⟩ := maskRows_ok lib tableRules columnNames salt rows rows' h
  unfold valueAt at hv
  cases hri : rows[i]? with
  | none => rw [hri] at hv; cases hv
  | some row =>
    rw [hri] at hv
    obtain ⟨r, hr, hm⟩ := hrows i row hri
    obtain ⟨_, hcells⟩ := maskRowFrom_ok lib tableRules columnNames salt 0 row r hm
    obtain ⟨c, hc, hcell⟩ := hcells j col hv
    refine ⟨c, ?_, by simpa using hcell⟩
    simp only [valueAt, hr]; exact hc

/-- The loop keeps the number of rows and the length of each row. -/
theorem maskRows_shape (rows rows' : List (List Expr))
    (h : maskRows lib tableRules columnNames salt rows = .ok rows') :
    rows'.length = rows.length ∧ rows'.map List.length = rows.map List.length := by
  obtain ⟨hlen, hrows⟩ := maskRows_ok lib tableRules columnNames salt rows rows' h
  refine ⟨hlen, List.ext_getElem? fun i => ?_⟩
  simp only [List.getElem?_map]
  cases hri : rows[i]? with
  | none =>
    have : rows'[i]? = none := by
      rw [List.getElem?_eq_none_iff] at hri ⊢; omega
    simp [this]
  | some row =>
    obtain ⟨r, hr, hm⟩ := hrows i row hri
    obtain ⟨hl, _⟩ := maskRowFrom_ok lib tableRules columnNames salt 0 row r hm
    simp [hr, hl]

theorem maskInsert_Values (insert : Insert) (rows : List (List Expr))
    (hrows : insert.Rows = .Values rows) :
    maskInsert lib tableRules salt insert =
      match maskRows lib tableRules insert.Columns salt rows with
      | .error a => .error a
      | .ok rows' => .ok { insert with Rows := .Values rows' } := by
  simp only [maskInsert, hrows]

theorem maskInsert_ok (insert masked : Insert) (rows : List (List Expr))
    (hrows : insert.Rows = .Values rows)
    (h : maskInsert lib tableRules salt insert = .ok masked) :
    ∃ rows', maskRows lib tableRules insert.Columns salt rows = .ok rows' ∧
      masked = { insert with Rows := .Values rows' } := by
  rw [maskInsert_Values lib tableRules salt insert rows hrows] at h
  cases hm : maskRows lib tableRules insert.Columns salt rows with
  | error a => rw [hm] at h; cases h
  | ok rows' => rw [hm] at h; exact ⟨rows', rfl, (Except.ok.inj h).symm⟩

theorem maskInsert_total (insert : Insert) (rows : List (List Expr))
    (hrows : insert.Rows = .Values rows) (hfit : RowsFit insert.Columns rows)
    (hren : Renders lib tableRules salt) :
    ∃ masked, maskInsert lib tableRules salt insert = .ok masked := by
  obtain ⟨rows', hm⟩ := maskRows_total lib tableRules insert.Columns salt hren rows hfit
  exact ⟨_, by rw [maskInsert_Values lib tableRules salt insert rows hrows, hm]⟩

end Loop

/-! ## `handleLine` on a statement whose table has rules -/

section Masking

variable {Template : Type} (lib : Lib Template) (line : String) (configData : RuleSet Template)
  (salt : String) (insert : Insert) (tableRules : TableRules Template)

theorem handleLine_reaches_loop (hpre : HasPrefix line "INSERT " = true)
    (hparse : lib.Parse (TrimSuffix line ";") = .ok (.Insert insert))
    (hrules : configData insert.Table.Name = some tableRules) :
    handleLine lib line configData salt =
      (["Masking `" ++ insert.Table.Name ++ "`..."],
        match maskInsert lib tableRules salt insert with
        | .error a => .error a
        | .ok masked => .ok (lib.SqlString masked ++ ";")) := by
  simp only [handleLine, hpre, hparse, hrules]
  cases maskInsert lib tableRules salt insert <;> rfl

theorem maskRows_valueAt_none (columnNames : List String) (rows rows' : List (List Expr))
    (h : maskRows lib tableRules columnNames salt rows = .ok rows') (i j : Nat)
    (hv : valueAt rows i j = none) : valueAt rows' i j = none := by
  obtain ⟨hlen, hrows⟩ := maskRows_ok lib tableRules columnNames salt rows rows' h
  unfold valueAt at hv ⊢
  cases hri : rows[i]? with
  | none =>
    have : rows'[i]? = none := by
      rw [List.getElem?_eq_none_iff] at hri ⊢; omega
    rw [this]
  | some row =>
    rw [hri] at hv
    obtain ⟨r, hr, hm⟩ := hrows i row hri
    obtain ⟨hl, _⟩ := maskRowFrom_ok lib tableRules columnNames salt 0 row r hm
    rw [hr]
    show r[j]? = none
    have hv' : row[j]? = none := hv
    rw [List.getElem?_eq_none_iff] at hv' ⊢; omega

theorem sampleLib_renders (rules : TableRules (List TemplateNode)) (salt : String)
    (h : ∀ name tmpl, rules name = some tmpl → tmpl = first3Stars) :
    Renders sampleLib rules salt := by
  intro name tmpl raw hr
  rw [h name tmpl hr]
  obtain ⟨⟨s, hs⟩, _⟩ := First_Last_total_of_nonneg { Raw := raw, Salt := salt } 3 (by decide)
  exact ⟨"" ++ s ++ "***", by simp only [sampleLib, first3Stars, executeNodes, hs]⟩

theorem emailRules_renders (salt : String) : Renders sampleLib emailRules salt :=
  sampleLib_renders emailRules salt fun name tmpl h => by
    unfold emailRules at h
    split at h
    · exact (Option.some.inj h).symm
    · cases h

theorem idRules_renders (salt : String) : Renders sampleLib idRules salt :=
  sampleLib_renders idRules salt fun name tmpl h => by
    unfold idRules at h
    split at h
    · exact (Option.some.inj h).symm
    · cases h

end Masking

/-- C1: for a parsed `INSERT ... VALUES` statement whose table has rules,
`handleLine` returns when no tuple is longer than the column list and the
templates render; and whenever it returns, the result is the serialized
statement with new rows followed by ";", where at every position whose column
has a rule a string literal `raw` has become the string literal of the
template rendered on `{Raw: raw, Salt: salt}`, and an integer literal `raw`
has become the integer literal of that same rendering, whatever text it is. -/
theorem handleLine_masks_literals {Template : Type} (lib : Lib Template) (line : String)
    (configData : RuleSet Template) (salt : String) (insert : Insert)
    (tableRules : TableRules Template) (rows : List (List Expr))
    (hpre : HasPrefix line "INSERT " = true)
    (hparse : lib.Parse (TrimSuffix line ";") = .ok (.Insert insert))
    (hrules : configData insert.Table.Name = some tableRules)
    (hrows : insert.Rows = .Values rows) :
    (RowsFit insert.Columns rows → Renders lib tableRules salt →
      ∃ out, (handleLine lib line configData salt).2 = .ok out) ∧
    (∀ out, (handleLine lib line configData salt).2 = .ok out →
      ∃ rows', out = lib.SqlString { insert with Rows := .Values rows' } ++ ";" ∧
        ∀ (i j : Nat) (name : String) (tmpl : Template) (raw : String),
          insert.Columns[j]? = some name → tableRules name = some tmpl →
          (valueAt rows i j = some (.SQLVal .StrVal raw) →
            ∃ buf, lib.Execute tmpl { Raw := raw, Salt := salt } = .ok buf ∧
              valueAt rows' i j = some (.SQLVal .StrVal buf)) ∧
          (valueAt rows i j = some (.SQLVal .IntVal raw) →
            ∃ buf, lib.Execute tmpl { Raw := raw, Salt := salt } = .ok buf ∧
              valueAt rows' i j = some (.SQLVal .IntVal buf))) := by
  have hloop := handleLine_reaches_loop lib line configData salt insert tableRules hpre hparse hrules
  constructor
  · intro hfit hren
    obtain ⟨masked, hm⟩ := maskInsert_total lib tableRules salt insert rows hrows hfit hren
    exact ⟨lib.SqlString masked ++ ";", by rw [hloop, hm]⟩
  · intro out hout
    rw [hloop] at hout
    cases hm : maskInsert lib tableRules salt insert with
    | error a => rw [hm] at hout; cases hout
    | ok masked =>
      rw [hm] at hout
      obtain ⟨rows', hmr, hmasked⟩ := maskInsert_ok lib tableRules salt insert masked rows hrows hm
      refine ⟨rows', ?_, ?_⟩
      · rw [← hmasked]; exact (Except.ok.inj hout).symm
      · intro i j name tmpl raw hname hrule
        constructor
        · intro hv
          obtain ⟨c, hc, hcell⟩ := maskRows_valueAt lib tableRules insert.Columns salt rows rows'
            hmr i j _ hv
          rw [maskCell_of_rule lib tableRules insert.Columns salt j name tmpl _ hname hrule] at hcell
          obtain ⟨buf, hx, hcb⟩ := maskCol_StrVal lib salt tmpl raw c hcell
          exact ⟨buf, hx, by rw [hc, hcb]⟩
        · intro hv
          obtain ⟨c, hc, hcell⟩ := maskRows_valueAt lib tableRules insert.Columns salt rows rows'
            hmr i j _ hv
          rw [maskCell_of_rule lib tableRules insert.Columns salt j name tmpl _ hname hrule] at hcell
          obtain ⟨buf, hx, hcb⟩ := maskCol_IntVal lib salt tmpl raw c hcell
          exact ⟨buf, hx, by rw [hc, hcb]⟩

/-- C1 on a rule for the integer column `id`: the integer literal `1` becomes
the unquoted text `1***`, which is not a number. -/
theorem handleLine_masks_literals_witness :
    HasPrefix "INSERT INTO users (id, email) VALUES (1, 'alice@example.com');" "INSERT " = true ∧
    sampleLib.Parse (TrimSuffix "INSERT INTO users (id, email) VALUES (1, 'alice@example.com');" ";")
      = .ok (.Insert (plainInsert "users" ["id", "email"]
          [[.SQLVal .IntVal "1", .SQLVal .StrVal "alice@example.com"]])) ∧
    idRuleSet "users" = some idRules ∧
    (∃ out, (handleLine sampleLib "INSERT INTO users (id, email) VALUES (1, 'alice@example.com');"
      idRuleSet "salt").2 = .ok out) ∧
    (handleLine sampleLib "INSERT INTO users (id, email) VALUES (1, 'alice@example.com');"
      idRuleSet "salt").2 = .ok "insert into users(id, email) values (1***, 'alice@example.com');" :=
  ⟨by decide, rfl, rfl,
    (handleLine_masks_literals sampleLib
      "INSERT INTO users (id, email) VALUES (1, 'alice@example.com');" idRuleSet "salt"
      (plainInsert "users" ["id", "email"]
        [[.SQLVal .IntVal "1", .SQLVal .StrVal "alice@example.com"]])
      idRules [[.SQLVal .IntVal "1", .SQLVal .StrVal "alice@example.com"]]
      (by decide) rfl rfl rfl).1
      (by intro row hrow; simp at hrow; subst hrow; decide) (idRules_renders "salt"),
    rfl⟩

/-- C5: the masking loop changes nothing except values at positions whose
column has a rule. For an `INSERT ... VALUES` statement the loop completes
when no tuple is longer than the column list and the templates render; and
whenever it completes, the statement afterwards is the statement before with
new rows: same table name, same column list, same number of rows, same length
of each row, and the same value at every position whose column has no rule. -/
theorem maskInsert_frame {Template : Type} (lib : Lib Template)
    (tableRules : TableRules Template) (salt : String) (insert : Insert)
    (rows : List (List Expr)) (hrows : insert.Rows = .Values rows) :
    (RowsFit insert.Columns rows → Renders lib tableRules salt →
      ∃ masked, maskInsert lib tableRules salt insert = .ok masked) ∧
    (∀ masked, maskInsert lib tableRules salt insert = .ok masked →
      masked.Table = insert.Table ∧ masked.Columns = insert.Columns ∧
      ∃ rows', masked = { insert with Rows := .Values rows' } ∧
        rows'.length = rows.length ∧
        rows'.map List.length = rows.map List.length ∧
        ∀ (i j : Nat) (name : String),
          insert.Columns[j]? = some name → tableRules name = none →
          valueAt rows' i j = valueAt rows i j) := by
  refine ⟨maskInsert_total lib tableRules salt insert rows hrows, fun masked hm => ?_⟩
  obtain ⟨rows', hmr, hmasked⟩ := maskInsert_ok lib tableRules salt insert masked rows hrows hm
  obtain ⟨hlen, hshape⟩ := maskRows_shape lib tableRules insert.Columns salt rows rows' hmr
  refine ⟨by rw [hmasked], by rw [hmasked], rows', hmasked, hlen, hshape, ?_⟩
  intro i j name hname hrule
  cases hv : valueAt rows i j with
  | none => exact maskRows_valueAt_none lib salt tableRules insert.Columns rows rows' hmr i j hv
  | some col =>
    obtain ⟨c, hc, hcell⟩ := maskRows_valueAt lib tableRules insert.Columns salt rows rows'
      hmr i j col hv
    rw [maskCell_of_no_rule lib tableRules insert.Columns salt j name col hname hrule] at hcell
    rw [hc, ← Except.ok.inj hcell]

/-- C5 on a two-row statement with a rule on `email` only: the loop completes,
and the table, the columns and the values of the column `id` are as before. -/
theorem maskInsert_frame_witness :
    (plainInsert "users" ["id", "email"]
      [[.SQLVal .IntVal "7", .NullVal],
       [.SQLVal .HexNum "0x1F", .SQLVal .StrVal "bob@example.com"]]).Rows =
      .Values [[.SQLVal .IntVal "7", .NullVal],
        [.SQLVal .HexNum "0x1F", .SQLVal .StrVal "bob@example.com"]] ∧
    (∃ masked, maskInsert sampleLib emailRules "salt"
      (plainInsert "users" ["id", "email"]
        [[.SQLVal .IntVal "7", .NullVal],
         [.SQLVal .HexNum "0x1F", .SQLVal .StrVal "bob@example.com"]]) = .ok masked) ∧
    maskInsert sampleLib emailRules "salt"
      (plainInsert "users" ["id", "email"]
        [[.SQLVal .IntVal "7", .NullVal],
         [.SQLVal .HexNum "0x1F", .SQLVal .StrVal "bob@example.com"]]) =
      .ok (plainInsert "users" ["id", "email"]
        [[.SQLVal .IntVal "7", .NullVal],
         [.SQLVal .HexNum "0x1F", .SQLVal .StrVal "bob***"]]) :=
  ⟨rfl,
    (maskInsert_frame sampleLib emailRules "salt"
      (plainInsert "users" ["id", "email"]
        [[.SQLVal .IntVal "7", .NullVal],
         [.SQLVal .HexNum "0x1F", .SQLVal .StrVal "bob@example.com"]])
      [[.SQLVal .IntVal "7", .NullVal],
       [.SQLVal .HexNum "0x1F", .SQLVal .StrVal "bob@example.com"]] rfl).1
      (by intro row hrow; simp at hrow; rcases hrow with h | h <;> subst h <;> decide)
      (emailRules_renders "salt"),
    rfl⟩

/-- C6: a value that is neither a string literal nor an integer literal
(`NULL`, a float, hex or bit literal, a bind variable, any other expression)
is the same after masking as before, also at a position whose column has a
rule; the switch returns it whatever `Execute` would do, so the template is
not rendered for it. -/
theorem maskInsert_keeps_other_kinds {Template : Type} (lib : Lib Template)
    (tableRules : TableRules Template) (salt : String) (insert : Insert)
    (rows : List (List Expr)) (hrows : insert.Rows = .Values rows) :
    (∀ (exec : Template → TemplateValue → ExecResult) (tmpl : Template) (col : Expr),
      isStrOrInt col = false →
      maskCol { lib with Execute := exec } salt tmpl col = .ok col) ∧
    (RowsFit insert.Columns rows → Renders lib tableRules salt →
      ∃ masked, maskInsert lib tableRules salt insert = .ok masked) ∧
    (∀ masked, maskInsert lib tableRules salt insert = .ok masked →
      ∃ rows', masked.Rows = .Values rows' ∧
        ∀ (i j : Nat) (col : Expr),
          valueAt rows i j = some col → isStrOrInt col = false →
          valueAt rows' i j = some col) := by
  refine ⟨fun exec tmpl col h => maskCol_of_not_strOrInt _ salt tmpl col h,
    maskInsert_total lib tableRules salt insert rows hrows, fun masked hm => ?_⟩
  obtain ⟨rows', hmr, hmasked⟩ := maskInsert_ok lib tableRules salt insert masked rows hrows hm
  refine ⟨rows', by rw [hmasked], fun i j col hv hk => ?_⟩
  obtain ⟨c, hc, hcell⟩ := maskRows_valueAt lib tableRules insert.Columns salt rows rows'
    hmr i j col hv
  rw [hc, maskCell_of_not_strOrInt lib tableRules insert.Columns salt j col c hk hcell]

/-- C6 on a statement whose masked column `email` holds `NULL`, a float and a
boolean value: the loop completes and returns the statement as it was, even
with a template engine that fails on every call. -/
theorem maskInsert_keeps_other_kinds_witness :
    (plainInsert "users" ["id", "email"]
      [[.SQLVal .IntVal "7", .NullVal], [.SQLVal .IntVal "8", .SQLVal .FloatVal "1.5"],
       [.SQLVal .IntVal "9", .other "true"]]).Rows =
      .Values [[.SQLVal .IntVal "7", .NullVal], [.SQLVal .IntVal "8", .SQLVal .FloatVal "1.5"],
        [.SQLVal .IntVal "9", .other "true"]] ∧
    (∃ masked, maskInsert sampleLib emailRules "salt"
      (plainInsert "users" ["id", "email"]
        [[.SQLVal .IntVal "7", .NullVal], [.SQLVal .IntVal "8", .SQLVal .FloatVal "1.5"],
         [.SQLVal .IntVal "9", .other "true"]]) = .ok masked) ∧
    maskInsert { sampleLib with Execute := fun _ _ => .err "render failed" } emailRules "salt"
      (plainInsert "users" ["id", "email"]
        [[.SQLVal .IntVal "7", .NullVal], [.SQLVal .IntVal "8", .SQLVal .FloatVal "1.5"],
         [.SQLVal .IntVal "9", .other "true"]]) =
      .ok (plainInsert "users" ["id", "email"]
        [[.SQLVal .IntVal "7", .NullVal], [.SQLVal .IntVal "8", .SQLVal .FloatVal "1.5"],
         [.SQLVal .IntVal "9", .other "true"]]) :=
  ⟨rfl,
    (maskInsert_keeps_other_kinds sampleLib emailRules "salt"
      (plainInsert "users" ["id", "email"]
        [[.SQLVal .IntVal "7", .NullVal], [.SQLVal .IntVal "8", .SQLVal .FloatVal "1.5"],
         [.SQLVal .IntVal "9", .other "true"]])
      [[.SQLVal .IntVal "7", .NullVal], [.SQLVal .IntVal "8", .SQLVal .FloatVal "1.5"],
       [.SQLVal .IntVal "9", .other "true"]] rfl).2.1
      (by
        intro row hrow
        simp at hrow
        rcases hrow with h | h | h <;> subst h <;> decide)
      (emailRules_renders "salt"),
    rfl⟩

/-! ## The end-to-end example -/

/-- C8 as stated fails: on the example line `handleLine` does not return the
text with upper-case keywords and a blank before the column list. -/
theorem handleLine_example_not_verbatim :
    (handleLine sampleLib "INSERT INTO users (id, email) VALUES (1, 'alice@example.com');"
      sampleRules "salt").2 ≠ .ok "INSERT INTO users (id, email) VALUES (1, 'ali***');" := by
  have h : (handleLine sampleLib "INSERT INTO users (id, email) VALUES (1, 'alice@example.com');"
      sampleRules "salt").2 = .ok "insert into users(id, email) values (1, 'ali***');" := rfl
  rw [h]
  intro hne
  exact absurd (Except.ok.inj hne) (by decide)

/-- C8 amended: with the rule `users.email = {{ .First 3 }}***` and any salt,
`handleLine` on the example line writes the notice for the table `users` and
returns the statement as the serializer prints it, followed by ";":
`insert into users(id, email) values (1, 'ali***');`. -/
theorem handleLine_example (salt : String) :
    handleLine sampleLib "INSERT INTO users (id, email) VALUES (1, 'alice@example.com');"
      sampleRules salt =
      (["Masking `users`..."], .ok "insert into users(id, email) values (1, 'ali***');") :=
  rfl

/-! ## Rows longer than the column list -/

/-- C9: a statement without a column list reaches the masking loop with rows
longer than its (empty) column list, and the index expression `columnNames[j]`
panics at `j = 0`. -/
theorem handleLine_index_out_of_range :
    sampleLib.Parse (TrimSuffix "INSERT INTO users VALUES (1, 'alice@example.com');" ";") =
      .ok (.Insert (plainInsert "users" []
        [[.SQLVal .IntVal "1", .SQLVal .StrVal "alice@example.com"]])) ∧
    handleLine sampleLib "INSERT INTO users VALUES (1, 'alice@example.com');" sampleRules "salt" =
      (["Masking `users`..."], .error (.panic "index out of range")) :=
  ⟨rfl, rfl⟩

/-- Whatever the library and the rules, a row longer than the column list
keeps the masking loop from completing: the statement never comes out of it. -/
theorem maskInsert_not_ok_of_long_row {Template : Type} (lib : Lib Template)
    (tableRules : TableRules Template) (salt : String) (insert : Insert)
    (rows : List (List Expr)) (hrows : insert.Rows = .Values rows)
    (i : Nat) (row : List Expr) (hrow : rows[i]? = some row)
    (hlong : insert.Columns.length < row.length) (masked : Insert) :
    maskInsert lib tableRules salt insert ≠ .ok masked := by
  intro hm
  obtain ⟨rows', hmr, _⟩ := maskInsert_ok lib tableRules salt insert masked rows hrows hm
  obtain ⟨_, hr⟩ := maskRows_ok lib tableRules insert.Columns salt rows rows' hmr
  obtain ⟨r, _, hm'⟩ := hr i row hrow
  obtain ⟨_, hcells⟩ := maskRowFrom_ok lib tableRules insert.Columns salt 0 row r hm'
  have hlt : insert.Columns.length < row.length := hlong
  obtain ⟨c, _, hcell⟩ := hcells insert.Columns.length row[insert.Columns.length]
    (List.getElem?_eq_getElem hlt)
  have := maskCell_in_range lib tableRules insert.Columns salt _ _ c hcell
  omega

end Vanir
